import Mathlib

/-!
Verification of the `lead_finder` pipeline (sidibos/business-finder).

The Python source is a single script.  We give a shallow embedding of its
pure logic.  Network effects (`requests.get`/`requests.post`) are modelled
by explicit oracles passed as function arguments: an HTTP fetch oracle for
the email scraper and response oracles for the search and detail stages.
Invocations of network operations are additionally returned as explicit
logs so that claims about "no call is performed" become provable
statements.

Python standard-library functions used by the script (`urllib.parse`,
`re.findall` on the two fixed regular expressions, `str.lower`,
`str.rstrip`, `sorted`) are modelled faithfully for the inputs that occur;
see the individual doc comments.
-/

set_option linter.unusedVariables false

/-! ## Basic string helpers (substring / starts-with, as used by `in` and
`str.startswith` in the source) -/

/-- `listStarts pat cs` : `cs` begins with `pat` (exact character match). -/
def listStarts : List Char → List Char → Bool
  | [], _ => true
  | _ :: _, [] => false
  | p :: ps, c :: cs => p = c && listStarts ps cs

/-- `listHas pat cs` : `pat` occurs as a contiguous run inside `cs`
(Python `pat in s`). -/
def listHas (pat : List Char) : List Char → Bool
  | [] => listStarts pat []
  | c :: cs => listStarts pat (c :: cs) || listHas pat cs

/-- Python `s.startswith(pat)`. -/
def strStarts (s pat : String) : Bool := listStarts pat.data s.data

/-- Python `pat in s` (substring containment). -/
def strContains (s pat : String) : Bool := listHas pat.data s.data

/-- Python `s.rstrip("/")`: remove all trailing slash characters. -/
def stripTrailingSlashes (s : String) : String :=
  String.mk ((s.data.reverse.dropWhile (fun c => c = '/')).reverse)

/-- Python `str.lower()` (character-wise lowercasing; the inputs of this
development are ASCII, where `Char.toLower` agrees with Python). -/
def strLower (s : String) : String := String.mk (s.data.map Char.toLower)

/-- Python string comparison on character lists: code-point
lexicographic. -/
def listLeB : List Char → List Char → Bool
  | [], _ => true
  | _ :: _, [] => false
  | a :: as, b :: bs => if a = b then listLeB as bs else decide (a < b)

/-- Python `s <= t` on strings: code-point lexicographic order, the order
`sorted` uses. -/
def pyLe (a b : String) : Prop := listLeB a.data b.data = true

instance : DecidableRel pyLe := fun a b => by
  unfold pyLe
  infer_instance

instance : IsTotal String pyLe := by
  constructor
  intro a b
  suffices h : ∀ x y : List Char, listLeB x y = true ∨ listLeB y x = true by
    exact h a.data b.data
  intro x
  induction x with
  | nil => intro y; exact Or.inl rfl
  | cons c cs ih =>
      intro y
      cases y with
      | nil => exact Or.inr rfl
      | cons d ds =>
          by_cases hcd : c = d
          · subst hcd
            simp only [listLeB, if_pos rfl]
            exact ih ds
          · rcases lt_or_gt_of_ne hcd with hlt | hgt
            · left
              simp only [listLeB, if_neg hcd]
              exact decide_eq_true hlt
            · right
              have hdc : d ≠ c := fun h2 => hcd h2.symm
              simp only [listLeB, if_neg hdc]
              exact decide_eq_true hgt

instance : IsTrans String pyLe := by
  constructor
  intro a b c
  suffices h : ∀ x y z : List Char,
      listLeB x y = true → listLeB y z = true → listLeB x z = true by
    exact h a.data b.data c.data
  intro x
  induction x with
  | nil => intro y z _ _; rfl
  | cons cx xs ih =>
      intro y z hxy hyz
      cases y with
      | nil => simp [listLeB] at hxy
      | cons cy ys =>
          cases z with
          | nil => simp [listLeB] at hyz
          | cons cz zs =>
              simp only [listLeB] at hxy hyz ⊢
              by_cases h1 : cx = cy <;> by_cases h2 : cy = cz
              · subst h1; subst h2
                rw [if_pos rfl] at hxy hyz ⊢
                exact ih ys zs hxy hyz
              · subst h1
                rw [if_neg h2] at hyz ⊢
                exact hyz
              · subst h2
                rw [if_neg h1] at hxy ⊢
                exact hxy
              · rw [if_neg h1] at hxy
                rw [if_neg h2] at hyz
                have hlt1 : cx < cy := of_decide_eq_true hxy
                have hlt2 : cy < cz := of_decide_eq_true hyz
                have hlt : cx < cz := lt_trans hlt1 hlt2
                have hne : cx ≠ cz := ne_of_lt hlt
                rw [if_neg hne]
                exact decide_eq_true hlt

/-! ## Model of `urllib.parse.urlsplit` / `urlparse`

The script calls `urlparse(url).netloc` (in `domain_of`) and
`urljoin(base, href)` (in `find_candidate_pages`).  We model CPython's
`urlsplit`: scheme is split off at the first `:` when the prefix is a
valid scheme, a netloc follows `//` and extends to the first of `/?#`,
then the fragment is split at the first `#` and the query at the first
`?`.  URL parameters (`;`, handled by `urlparse` but not `urlsplit`) do
not occur in any input of this development and are not modelled. -/

/-- Characters allowed in a URL scheme after the first (CPython
`scheme_chars`). -/
def schemeChar (c : Char) : Bool :=
  c.isAlpha || c.isDigit || c = '+' || c = '-' || c = '.'

structure UrlParts where
  scheme : String
  netloc : String
  path : String
  query : String
  fragment : String
deriving DecidableEq

/-- Split `(before, after)` at the first occurrence of `d`; `none` when `d`
is absent. -/
def splitFirst (d : Char) (cs : List Char) : List Char × Option (List Char) :=
  match cs.findIdx? (fun c => c = d) with
  | none => (cs, none)
  | some i => (cs.take i, some (cs.drop (i + 1)))

/-- CPython `urlsplit(url, scheme=default)` (with `allow_fragments=True`). -/
def urlsplitD (default : String) (url : String) : UrlParts :=
  let cs := url.data
  let schemeRest : String × List Char :=
    match cs.findIdx? (fun c => c = ':') with
    | some i =>
        if 0 < i ∧ (cs.getD 0 ' ').isAlpha ∧ (cs.take i).all schemeChar then
          (String.mk ((cs.take i).map Char.toLower), cs.drop (i + 1))
        else (default, cs)
    | none => (default, cs)
  let scheme := schemeRest.1
  let rest := schemeRest.2
  let netlocRest : String × List Char :=
    if listStarts ['/', '/'] rest then
      let after := rest.drop 2
      let nl := after.takeWhile (fun c => c ≠ '/' ∧ c ≠ '?' ∧ c ≠ '#')
      (String.mk nl, after.drop nl.length)
    else ("", rest)
  let netloc := netlocRest.1
  let rest2 := netlocRest.2
  let fragSplit := splitFirst '#' rest2
  let fragment := match fragSplit.2 with
    | some f => String.mk f
    | none => ""
  let querySplit := splitFirst '?' fragSplit.1
  let query := match querySplit.2 with
    | some q => String.mk q
    | none => ""
  { scheme := scheme, netloc := netloc, path := String.mk querySplit.1,
    query := query, fragment := fragment }

/-- CPython `urlunsplit`. -/
def urlunsplit (p : UrlParts) : String :=
  let u0 := p.path
  let u1 :=
    if p.netloc ≠ "" ∨ strStarts u0 "//" then
      "//" ++ p.netloc ++ (if u0 ≠ "" ∧ ¬ strStarts u0 "/" then "/" ++ u0 else u0)
    else u0
  let u2 := if p.scheme ≠ "" then p.scheme ++ ":" ++ u1 else u1
  let u3 := if p.query ≠ "" then u2 ++ "?" ++ p.query else u2
  if p.fragment ≠ "" then u3 ++ "#" ++ p.fragment else u3

/-- CPython `urllib.parse.uses_relative`. -/
def usesRelative : List String :=
  ["", "ftp", "http", "gopher", "nntp", "imap", "wais", "file", "https",
   "shttp", "mms", "prospero", "rtsp", "rtspu", "sftp", "svn", "svn+ssh",
   "ws", "wss"]

/-- CPython `urllib.parse.uses_netloc`. -/
def usesNetloc : List String :=
  ["", "ftp", "http", "gopher", "nntp", "telnet", "imap", "wais", "file",
   "mms", "https", "shttp", "snews", "prospero", "rtsp", "rtspu", "rsync",
   "svn", "svn+ssh", "sftp", "nfs", "git", "git+ssh", "ws", "wss"]

/-- Python `path.split("/")` (splitting on a one-character separator). -/
def splitSlashAux (cur : List Char) : List Char → List String
  | [] => [String.mk cur.reverse]
  | c :: cs =>
      if c = '/' then String.mk cur.reverse :: splitSlashAux [] cs
      else splitSlashAux (c :: cur) cs

def splitSlash (s : String) : List String := splitSlashAux [] s.data

/-- Python `"/".join(parts)`. -/
def joinSlash : List String → String
  | [] => ""
  | [s] => s
  | s :: rest => s ++ "/" ++ joinSlash rest

/-- In `s`, keep the first and last element and drop empty strings from the
middle (CPython `segments[1:-1] = filter(None, segments[1:-1])`). -/
def filterMiddle (s : List String) : List String :=
  match s with
  | [] => []
  | [a] => [a]
  | a :: rest =>
      match rest.getLast? with
      | none => [a]
      | some last => a :: ((rest.dropLast.filter (fun x => x ≠ "")) ++ [last])

/-- CPython `urllib.parse.urljoin` (3.x `_splitparams`-free paths: no `;`
parameters occur in this development's inputs). -/
def urljoin (base url : String) : String :=
  if base = "" then url
  else if url = "" then base
  else
    let b := urlsplitD "" base
    let u0 := urlsplitD b.scheme url
    if u0.scheme ≠ b.scheme ∨ ¬ (u0.scheme ∈ usesRelative) then url
    else
      let netlocKeep := u0.scheme ∈ usesNetloc ∧ u0.netloc ≠ ""
      if netlocKeep then urlunsplit u0
      else
        let u := if u0.scheme ∈ usesNetloc then { u0 with netloc := b.netloc } else u0
        if u.path = "" then
          urlunsplit { u with path := b.path,
                              query := if u.query = "" then b.query else u.query }
        else
          let bparts0 := splitSlash b.path
          let bparts := if bparts0.getLast? ≠ some "" then bparts0.dropLast else bparts0
          let segs :=
            if strStarts u.path "/" then splitSlash u.path
            else filterMiddle (bparts ++ splitSlash u.path)
          let resolved := segs.foldl
            (fun acc seg =>
              if seg = ".." then acc.dropLast
              else if seg = "." then acc
              else acc ++ [seg]) ([] : List String)
          let resolved :=
            if segs.getLast? = some "." ∨ segs.getLast? = some ".." then
              resolved ++ [""]
            else resolved
          let joined := joinSlash resolved
          urlunsplit { u with path := if joined = "" then "/" else joined }

/-- `domain_of` (lead_finder.py:73): `urlparse(url).netloc.lower()`; the
`try/except` never fires in this model. -/
def domain_of (url : String) : String :=
  strLower (urlsplitD "" url).netloc

/-! ## Website classifier (lead_finder.py:16-28, 81-91) -/

/-- `LOW_EFFORT_DOMAINS` (lead_finder.py:16): the Python set is modelled as
a list; only membership is used. -/
def LOW_EFFORT_DOMAINS : List String :=
  ["facebook.com", "www.facebook.com", "m.facebook.com",
   "instagram.com", "www.instagram.com",
   "yelp.com", "www.yelp.com",
   "linktr.ee", "www.linktr.ee",
   "goo.gl", "maps.app.goo.gl"]

/-- `is_low_effort_or_missing_website` (lead_finder.py:81): returns
`(is_lead, reason)`.  The `str | None` argument is an `Option String`;
Python truthiness makes `none` and `some ""` both count as missing. -/
def is_low_effort_or_missing_website (website_uri : Option String) : Bool × String :=
  match website_uri with
  | none => (true, "missing_website")
  | some s =>
      if s = "" then (true, "missing_website")
      else
        let d := domain_of s
        if d ∈ LOW_EFFORT_DOMAINS then (true, "low_effort_domain:" ++ d)
        else (false, "has_website:" ++ (if d = "" then "unknown" else d))

/-- The classifier's lead condition, written out as a predicate: the
website is absent/empty, or its `urlparse` netloc, lowercased, is
denylisted. -/
def websiteMissingOrDenylisted (website_uri : Option String) : Bool :=
  match website_uri with
  | none => true
  | some s => s = "" || domain_of s ∈ LOW_EFFORT_DOMAINS

/-- The spec's notion of the "host component" of a URL: the netloc with
any user-info (up to the last `@`) and any `:port` removed, lowercased —
i.e. `urlparse(url).hostname` for non-bracketed hosts.  Written from the
spec's words to compare against what the code actually uses (`netloc`). -/
def specHostComponent (url : String) : String :=
  let nl := (urlsplitD "" url).netloc.data
  let afterAt := (nl.reverse.takeWhile (fun c => c ≠ '@')).reverse
  strLower (String.mk (afterAt.takeWhile (fun c => c ≠ ':')))

/-! ## Email regular-expression scan (lead_finder.py:31, 101-105)

`EMAIL_REGEX = [a-zA-Z0-9._%+-]+@[a-zA-Z0-9.-]+\.[a-zA-Z]{2,}` and
`re.findall`: leftmost non-overlapping matches, each class greedy with
backtracking.  Because `@` is in neither class and the trailing
letter-run is final, the only backtracking that matters is the choice of
the `.` before the TLD inside the greedy domain run: Python tries the
rightmost feasible dot first.  `dotSearch` implements exactly that. -/

/-- `[a-zA-Z0-9._%+-]` (local part). -/
def isEmailLocalChar (c : Char) : Bool :=
  c.isAlpha || c.isDigit || c = '.' || c = '_' || c = '%' || c = '+' || c = '-'

/-- `[a-zA-Z0-9.-]` (domain part). -/
def isEmailDomChar (c : Char) : Bool :=
  c.isAlpha || c.isDigit || c = '.' || c = '-'

/-- Inside the maximal domain-class run `bs`, try dot positions from `i`
downward (never position 0, since `[a-zA-Z0-9.-]+` must consume at least
one character first): at a feasible dot at least two letters must follow.
Returns the matched tail (domain, dot, TLD) and the number of characters
of `bs` consumed. -/
def dotSearch (bs : List Char) : Nat → Option (List Char × Nat)
  | 0 => none
  | i + 1 =>
      let idx := i + 1
      if bs.getD idx ' ' = '.' then
        let tld := (bs.drop (idx + 1)).takeWhile (fun c => c.isAlpha)
        if 2 ≤ tld.length then some (bs.take idx ++ '.' :: tld, idx + 1 + tld.length)
        else dotSearch bs i
      else dotSearch bs i

/-- Attempt to match `EMAIL_REGEX` anchored at the head of `cs`; on
success return the matched text and the remaining characters. -/
def matchEmailAt (cs : List Char) : Option (String × List Char) :=
  let a := cs.takeWhile isEmailLocalChar
  if a.length = 0 then none
  else
    match cs.drop a.length with
    | '@' :: rest2 =>
        let bs := rest2.takeWhile isEmailDomChar
        match dotSearch bs (bs.length - 1) with
        | some (tl, consumed) => some (String.mk (a ++ '@' :: tl), rest2.drop consumed)
        | none => none
    | _ => none

/-- `re.findall(EMAIL_REGEX, ·)` over a character list: at each position
try an anchored match; on success continue after the match, otherwise
advance one character.  Every match consumes at least one character, so
`fuel = length` suffices. -/
def scanEmails : Nat → List Char → List String
  | 0, _ => []
  | _ + 1, [] => []
  | fuel + 1, c :: rest =>
      match matchEmailAt (c :: rest) with
      | some (m, remaining) => m :: scanEmails fuel remaining
      | none => scanEmails fuel rest

/-- Keep-first-occurrence deduplication relative to an already-seen set
(the model of building a Python `set`: downstream only membership and the
minimum are used, both order- and multiplicity-insensitive). -/
def firstOcc (seen : List String) : List String → List String
  | [] => []
  | u :: rest => if u ∈ seen then firstOcc seen rest else u :: firstOcc (u :: seen) rest

/-- `extract_emails_from_html` (lead_finder.py:101): the set of emails
found in the HTML text, as a duplicate-free list. -/
def extract_emails_from_html (html : String) : List String :=
  if html = "" then []
  else firstOcc [] (scanEmails html.length html.data)

/-! ## HTTP fetch (lead_finder.py:108-130) -/

/-- A `requests` response, reduced to the fields the script reads. -/
structure HttpResponse where
  status : Nat
  contentType : Option String
  body : String
deriving DecidableEq

/-- The network, as an oracle: a URL either raises (`Except.error`) or
yields a response (after redirects). -/
def NetOracle : Type := String → Except String HttpResponse

/-- `fetch_html` (lead_finder.py:108): empty string in dry-run mode, on a
raised exception, on a non-200 status, or on a non-HTML content type;
otherwise the body (`r.text or ""`). -/
def fetch_html (net : NetOracle) (dry_run : Bool) (url : String) : String :=
  if dry_run then ""
  else
    match net url with
    | Except.error _ => ""
    | Except.ok r =>
        if r.status ≠ 200 then ""
        else if ¬ strContains (strLower (r.contentType.getD "")) "text/html" then ""
        else r.body

/-! ## Candidate contact pages (lead_finder.py:32, 133-166) -/

/-- `CONTACT_HINTS` (lead_finder.py:32). -/
def CONTACT_HINTS : List String :=
  ["contact", "contact-us", "get-in-touch", "about", "about-us", "impressum", "support"]

/-- The single-quote character (code point 39). -/
def squote : Char := Char.ofNat 39

def isQuoteChar (c : Char) : Bool := c = '"' || c = squote

/-- Case-insensitive anchored match of `pat` (via `Char.toLower`, as
`re.IGNORECASE` behaves on ASCII). -/
def listStartsCI : List Char → List Char → Bool
  | [], _ => true
  | _ :: _, [] => false
  | p :: ps, c :: cs => p.toLower = c.toLower && listStartsCI ps cs

/-- Anchored match of the pattern `href=["...]` / `href=[...']`
(`href=["\']([^"\']+)["\']`, IGNORECASE): returns the captured group and
the characters after the closing quote. -/
def matchHrefAt (cs : List Char) : Option (String × List Char) :=
  if listStartsCI ['h', 'r', 'e', 'f', '='] cs then
    match cs.drop 5 with
    | q :: rest =>
        if isQuoteChar q then
          let content := rest.takeWhile (fun c => ¬ isQuoteChar c)
          if content.length = 0 then none
          else
            match rest.drop content.length with
            | q2 :: rest2 => if isQuoteChar q2 then some (String.mk content, rest2) else none
            | [] => none
        else none
    | [] => none
  else none

/-- `re.findall` for the href pattern (same scanning discipline as
`scanEmails`). -/
def scanHrefs : Nat → List Char → List String
  | 0, _ => []
  | _ + 1, [] => []
  | fuel + 1, c :: rest =>
      match matchHrefAt (c :: rest) with
      | some (m, remaining) => m :: scanHrefs fuel remaining
      | none => scanHrefs fuel rest

/-- The `hrefs` list of `find_candidate_pages` (lead_finder.py:141). -/
def findHrefs (html : String) : List String := scanHrefs html.length html.data

/-- The body of the per-href loop of `find_candidate_pages`
(lead_finder.py:144-152), as an optional produced URL: skip
`mailto:`/`tel:`/`javascript:`/fragment links, keep links whose lowercase
text contains a contact hint, resolved against the base URL. -/
def hrefCandidate (base_url href : String) : Option String :=
  let hl := strLower href
  if strStarts hl "mailto:" || strStarts hl "tel:" || strStarts hl "javascript:" || strStarts hl "#" then
    none
  else if CONTACT_HINTS.any (fun hint => strContains hl hint) then
    some (urljoin base_url href)
  else none

/-- The anchor-derived candidate URLs, in document order. -/
def anchorCandidates (base_url html : String) : List String :=
  (findHrefs html).filterMap (hrefCandidate base_url)

/-- The six conventional paths of lead_finder.py:155. -/
def COMMON_PATHS : List String :=
  ["contact", "contact-us", "about", "about-us", "impressum", "support"]

/-- The unconditionally appended conventional-path URLs
(lead_finder.py:155-156). -/
def commonPathCandidates (base_url : String) : List String :=
  COMMON_PATHS.map (fun p => urljoin (stripTrailingSlashes base_url ++ "/") p)

/-- The `seen`/`out` deduplication loop of lead_finder.py:159-164, with
the state `(seen, out)` threaded explicitly. -/
def dedupLoop : List String × List String → List String → List String × List String
  | st, [] => st
  | (seen, out), u :: rest =>
      if u ∈ seen then dedupLoop (seen, out) rest
      else dedupLoop (u :: seen, out ++ [u]) rest

/-- `find_candidate_pages` (lead_finder.py:133): empty for empty HTML;
otherwise hint-matching anchor links (loop at lines 144-152), then the
conventional paths (lines 155-156), deduplicated preserving order (lines
159-164), capped at 6 (line 166). -/
def find_candidate_pages (base_url html : String) : List String :=
  if html = "" then []
  else
    let hrefs := findHrefs html
    let candidates := hrefs.foldl
      (fun acc href =>
        match hrefCandidate base_url href with
        | some u => acc ++ [u]
        | none => acc) ([] : List String)
    let candidates := COMMON_PATHS.foldl
      (fun acc p => acc ++ [urljoin (stripTrailingSlashes base_url ++ "/") p]) candidates
    ((dedupLoop ([], []) candidates).2).take 6

/-! ## Email extraction (lead_finder.py:169-198) -/

/-- `sorted(emails)[0]` when `emails` is non-empty: the head of the sorted
list.  Mathlib's `String` linear order is code-point lexicographic, the
same order Python's `sorted` uses on `str`. -/
def sortedMin (emails : List String) : Option String :=
  (emails.insertionSort pyLe).head?

/-- The loop over candidate pages (lead_finder.py:188-193).  Returns
`(email, email_source, fetched-urls)`; the third component logs every
`fetch_html` invocation the loop performs. -/
def scanCandidatePages (net : NetOracle) (dry_run : Bool) : List String → String × String × List String
  | [] => ("", "", [])
  | page_url :: rest =>
      let page_html := fetch_html net dry_run page_url
      match sortedMin (extract_emails_from_html page_html) with
      | some email => (email, "page:" ++ page_url, [page_url])
      | none =>
          let r := scanCandidatePages net dry_run rest
          (r.1, r.2.1, page_url :: r.2.2)

/-- `extract_email_from_website` (lead_finder.py:169): returns
`(email, email_source)` plus the log of URLs passed to `fetch_html`
(empty exactly when no fetch is attempted).  The `debug` flag only
controls logging in the source and is ignored. -/
def extract_email_from_website (net : NetOracle) (dry_run debug : Bool) (website : String) :
    String × String × List String :=
  if website = "" || dry_run then ("", "", [])
  else
    let html := fetch_html net dry_run website
    match sortedMin (extract_emails_from_html html) with
    | some email => (email, "homepage", [website])
    | none =>
        let r := scanCandidatePages net dry_run (find_candidate_pages website html)
        (r.1, r.2.1, website :: r.2.2)

/-! ## Search results and pagination (lead_finder.py:292-406) -/

/-- A search result (`places[i]` of a Text Search response), reduced to
the fields the script reads.  `displayName` holds the `.text` member of
the nested object. -/
structure SearchPlace where
  id : Option String
  displayName : Option String
  formattedAddress : Option String
  rating : Option ℚ
  userRatingCount : Option ℤ
  nationalPhoneNumber : Option String
deriving DecidableEq

/-- The part of a search response that the pagination loop reads. -/
structure SearchData where
  places : List SearchPlace
  nextPageToken : Option String
deriving DecidableEq

/-- The search backend as an oracle: response to the `k`-th request of a
run, which carried the given `pageToken`. -/
def SearchOracle : Type := Nat → Option String → SearchData

/-- Python `str.title()` (ASCII): uppercase the first letter of each
letter run, lowercase the rest. -/
def titleAux : Bool → List Char → List Char
  | _, [] => []
  | prevCased, c :: cs =>
      if c.isAlpha then
        (if prevCased then c.toLower else c.toUpper) :: titleAux true cs
      else c :: titleAux false cs

def strTitle (s : String) : String := String.mk (titleAux false s.data)

/-- The fabricated dry-run search payload of `text_search`
(lead_finder.py:316-335). -/
def dryTextPlaces (niche location : String) : List SearchPlace :=
  [ { id := some "DRY_PLACE_1",
      displayName := some (strTitle niche ++ " Example One"),
      formattedAddress := some location,
      rating := some (mkRat 46 10),
      userRatingCount := some 128,
      nationalPhoneNumber := some "+44 20 0000 0001" },
    { id := some "DRY_PLACE_2",
      displayName := some (strTitle niche ++ " Example Two"),
      formattedAddress := some location,
      rating := some (mkRat 43 10),
      userRatingCount := some 34,
      nationalPhoneNumber := some "+44 20 0000 0002" } ]

/-- The fabricated dry-run payload of `radius_search_via_text_bias`
(lead_finder.py:384-396). -/
def dryRadiusPlaces (niche : String) : List SearchPlace :=
  [ { id := some "DRY_RADIUS_1",
      displayName := some (strTitle niche ++ " Nearby One"),
      formattedAddress := some "Near your chosen radius",
      rating := some (mkRat 47 10),
      userRatingCount := some 210,
      nationalPhoneNumber := some "+44 20 0000 0101" } ]

/-- The `for _ in range(max_pages)` loop of `text_search`
(lead_finder.py:308-343), parameterised by the dry-run payload so the
identical loop of `radius_search_via_text_bias` (lines 372-404) shares
it.  Returns the accumulated results, the number of `places_post`
requests issued, and the `nextPageToken` of the last response received
(`none` when the loop broke because no token was returned). -/
def searchLoop (resp : SearchOracle) (dry_run : Bool) (dryPlaces : List SearchPlace) :
    Nat → Nat → Option String → List SearchPlace × Nat × Option String
  | 0, _, _ => ([], 0, none)
  | rem + 1, k, tok =>
      let d0 := resp k tok
      let d := if dry_run then { places := dryPlaces, nextPageToken := none } else d0
      match d.nextPageToken with
      | none => (d.places, 1, none)
      | some t =>
          let r := searchLoop resp dry_run dryPlaces rem (k + 1) (some t)
          (d.places ++ r.1, r.2.1 + 1, if r.2.1 = 0 then some t else r.2.2)

/-- `text_search` (lead_finder.py:292): paginated Text Search.  The
`niche`/`location` arguments shape the fabricated dry-run payload; the
request body itself lives in the oracle. -/
def text_search (resp : SearchOracle) (dry_run : Bool) (niche location : String)
    (max_pages : Nat) : List SearchPlace × Nat × Option String :=
  searchLoop resp dry_run (dryTextPlaces niche location) max_pages 0 none

/-- `radius_search_via_text_bias` (lead_finder.py:348): same loop, radius
dry-run payload.  The latitude/longitude/radius only shape the request
body, which lives in the oracle. -/
def radius_search_via_text_bias (resp : SearchOracle) (dry_run : Bool) (niche : String)
    (max_pages : Nat) : List SearchPlace × Nat × Option String :=
  searchLoop resp dry_run (dryRadiusPlaces niche) max_pages 0 none

/-! ## Deduplication and pipeline (lead_finder.py:412-514) -/

/-- A Place Details payload, reduced to the fields the script reads. -/
structure PlaceDetail where
  id : Option String
  displayName : Option String
  formattedAddress : Option String
  rating : Option ℚ
  userRatingCount : Option ℤ
  nationalPhoneNumber : Option String
  websiteUri : Option String
  googleMapsUri : Option String
deriving DecidableEq

/-- The details endpoint as an oracle keyed by place id (transport
failures abort the whole run in the source and are outside every claim,
so the oracle is total). -/
def DetailOracle : Type := String → PlaceDetail

/-- An output lead record (lead_finder.py:495-509).  `rating`/`reviews`
are optional because the Python dict falls back to `""` when the detail
lacks the field. -/
structure Lead where
  name : String
  rating : Option ℚ
  reviews : Option ℤ
  phone : String
  email : String
  email_source : String
  address : String
  website : String
  maps_url : String
  reason : String
  place_id : String
deriving DecidableEq

/-- The id under which a search result is deduplicated: `p.get("id")`
filtered by Python truthiness (`if pid`), so an empty-string id counts as
absent. -/
def truthyId (p : SearchPlace) : Option String :=
  match p.id with
  | none => none
  | some s => if s = "" then none else some s

/-- Association-list lookup (insertion-ordered `dict` access by key). -/
def lookupKey (l : List (String × SearchPlace)) (k : String) : Option SearchPlace :=
  match l with
  | [] => none
  | (k1, v) :: rest => if k1 = k then some v else lookupKey rest k

/-- The `by_id` loop of `run_pipeline` (lead_finder.py:442-446), with the
insertion-ordered dict as an association list accumulator. -/
def dedupAux (acc : List (String × SearchPlace)) : List SearchPlace → List (String × SearchPlace)
  | [] => acc
  | p :: rest =>
      match truthyId p with
      | none => dedupAux acc rest
      | some pid =>
          if (lookupKey acc pid).isSome then dedupAux acc rest
          else dedupAux (acc ++ [(pid, p)]) rest

/-- `by_id`: search results deduplicated by place id, first occurrence
kept, insertion-ordered. -/
def dedupById (places : List SearchPlace) : List (String × SearchPlace) :=
  dedupAux [] places

/-- The fabricated dry-run detail payload (lead_finder.py:473-484):
website empty (hence `None`) when the id contains `"1"`, otherwise a
Facebook page. -/
def fakeDetail (pid : String) (p : SearchPlace) (rating : ℚ) (count : ℤ) : PlaceDetail :=
  { id := some pid,
    displayName := some (p.displayName.getD ""),
    formattedAddress := some (p.formattedAddress.getD ""),
    rating := some rating,
    userRatingCount := some count,
    nationalPhoneNumber := some (p.nationalPhoneNumber.getD ""),
    websiteUri := if strContains pid "1" then none else some "https://www.facebook.com/example",
    googleMapsUri := some ("https://maps.google.com/?q=place_id:" ++ pid) }

/-- The lead record assembled at lead_finder.py:495-509 from the effective
detail `d`, the dedup key `pid`, the detail's website, the scraped email
and the classifier's reason. -/
def mkLead (d : PlaceDetail) (pid : String) (website : Option String)
    (email email_source reason : String) : Lead :=
  { name := d.displayName.getD "",
    rating := d.rating,
    reviews := d.userRatingCount,
    phone := d.nationalPhoneNumber.getD "",
    email := email,
    email_source := email_source,
    address := d.formattedAddress.getD "",
    website := website.getD "",
    maps_url := d.googleMapsUri.getD "",
    reason := reason,
    place_id := d.id.getD pid }

/-- The per-place loop of `run_pipeline` (lead_finder.py:464-513) over the
deduplicated entries.  Returns the lead list and the log of place ids for
which `places_get_details` was invoked (the detail-fetch log). -/
def pipelineLoop (net : NetOracle) (details : DetailOracle) (min_rating : ℚ)
    (min_reviews : ℤ) (dry_run debug : Bool) :
    List (String × SearchPlace) → List Lead × List String
  | [] => ([], [])
  | (pid, p) :: rest =>
      let rating := p.rating.getD 0
      let count := p.userRatingCount.getD 0
      if rating < min_rating ∨ count < min_reviews then
        pipelineLoop net details min_rating min_reviews dry_run debug rest
      else
        let d0 := details pid
        let d := if dry_run then fakeDetail pid p rating count else d0
        let website := d.websiteUri
        let er := extract_email_from_website net dry_run debug (website.getD "")
        let cls := is_low_effort_or_missing_website website
        let r := pipelineLoop net details min_rating min_reviews dry_run debug rest
        (if cls.1 then mkLead d pid website er.1 er.2.1 cls.2 :: r.1 else r.1,
         pid :: r.2)

/-- `run_pipeline`, stages 2-3 (lead_finder.py:441-514): deduplicate the
search results, then filter/fetch/classify/scrape per unique place.  The
search stage (lines 426-439) is `text_search` /
`radius_search_via_text_bias` above; its output is the `places`
argument. -/
def run_pipeline (net : NetOracle) (details : DetailOracle) (min_rating : ℚ)
    (min_reviews : ℤ) (dry_run debug : Bool) (places : List SearchPlace) :
    List Lead × List String :=
  pipelineLoop net details min_rating min_reviews dry_run debug (dedupById places)

/-! ## Specification-side definitions used in theorem statements -/

/-- The earliest search result with the given (truthy) identifier: what
the claim's "earliest occurrence" denotes. -/
def findById (places : List SearchPlace) (pid : String) : Option SearchPlace :=
  match places with
  | [] => none
  | p :: rest => if truthyId p = some pid then some p else findById rest pid

/-- The detail record the pipeline uses for a place: the fabricated
payload in dry-run mode, the details-endpoint response otherwise. -/
def effDetail (details : DetailOracle) (dry_run : Bool) (pid : String) (p : SearchPlace) :
    PlaceDetail :=
  if dry_run then fakeDetail pid p (p.rating.getD 0) (p.userRatingCount.getD 0)
  else details pid

/-- Replace every raised exception of the network oracle by a benign
response carrying no content: the oracle under which an exception is
literally "no email found" for that page. -/
def errAsEmpty (net : NetOracle) : NetOracle := fun u =>
  match net u with
  | Except.error _ => Except.ok { status := 0, contentType := none, body := "" }
  | Except.ok r => Except.ok r

/-! ## Concrete fixtures used by witnesses and counterexamples -/

/-- A network oracle on which every request raises. -/
def netDown : NetOracle := fun _ => Except.error "ConnectionError"

/-- A details oracle that returns an empty payload for every place. -/
def noDetail : DetailOracle := fun _ =>
  { id := none, displayName := none, formattedAddress := none, rating := none,
    userRatingCount := none, nationalPhoneNumber := none, websiteUri := none,
    googleMapsUri := none }

/-- A homepage whose HTML contains the emails `b@x.com` and `a@x.com`. -/
def netTwoEmails : NetOracle := fun _ =>
  Except.ok { status := 200, contentType := some "text/html",
              body := "<p>b@x.com and a@x.com</p>" }

/-- A server answering 201 Created with an HTML body. -/
def net201 : NetOracle := fun _ =>
  Except.ok { status := 201, contentType := some "text/html", body := "hello" }

/-- A server answering 200 with an HTML content type. -/
def netOkHtml : NetOracle := fun _ =>
  Except.ok { status := 200, contentType := some "text/html; charset=utf-8",
              body := "<p>hi</p>" }

/-- A search backend whose every response has no continuation token. -/
def respNone : SearchOracle := fun _ _ => { places := [], nextPageToken := none }

/-- A concrete dry-run-style search result passing the default
thresholds. -/
def dpOne : SearchPlace :=
  { id := some "DRY_PLACE_1", displayName := some "Barbers Example One",
    formattedAddress := some "London, UK", rating := some (mkRat 46 10),
    userRatingCount := some 128, nationalPhoneNumber := some "+44 20 0000 0001" }

/-- A concrete search result failing the default thresholds. -/
def dpLow : SearchPlace :=
  { id := some "LOW_PLACE_2", displayName := some "Sleepy Example",
    formattedAddress := some "London, UK", rating := some (3 : ℚ),
    userRatingCount := some 5, nationalPhoneNumber := none }

/-- A later duplicate of `dpOne`: same place id, different fields. -/
def dpDup : SearchPlace := { dpOne with rating := some (1 : ℚ) }

/-- A search result carrying no place id. -/
def dpNoId : SearchPlace :=
  { id := none, displayName := some "anonymous", formattedAddress := none,
    rating := some (5 : ℚ), userRatingCount := some 999,
    nationalPhoneNumber := none }

/-- The lead produced for `dpOne` by a dry run with the default
thresholds. -/
def dryLead1 : Lead :=
  mkLead (fakeDetail "DRY_PLACE_1" dpOne (mkRat 46 10) 128) "DRY_PLACE_1" none "" ""
    "missing_website"

/-! ## Helper lemmas: deduplication -/

theorem lookupKey_append (acc : List (String × SearchPlace)) (q : String) (p : SearchPlace)
    (k : String) :
    lookupKey (acc ++ [(q, p)]) k =
      match lookupKey acc k with
      | some v => some v
      | none => if q = k then some p else none := by
  induction acc with
  | nil => simp [lookupKey]
  | cons e rest ih =>
      obtain ⟨k1, v⟩ := e
      by_cases h : k1 = k <;> simp [lookupKey, h, ih]

theorem lookupKey_isSome_iff (l : List (String × SearchPlace)) (k : String) :
    (lookupKey l k).isSome = true ↔ k ∈ l.map Prod.fst := by
  induction l with
  | nil => simp [lookupKey]
  | cons e rest ih =>
      obtain ⟨k1, v⟩ := e
      by_cases h : k1 = k
      · subst h
        simp [lookupKey]
      · simp only [lookupKey, if_neg h, List.map_cons, List.mem_cons, ih]
        constructor
        · intro hm
          exact Or.inr hm
        · rintro (hk | hm)
          · exact absurd hk.symm h
          · exact hm

theorem dedupAux_lookup (places : List SearchPlace) : ∀ (acc : List (String × SearchPlace))
    (k : String),
    lookupKey (dedupAux acc places) k =
      match lookupKey acc k with
      | some v => some v
      | none => findById places k := by
  induction places with
  | nil =>
      intro acc k
      simp only [dedupAux, findById]
      cases lookupKey acc k <;> rfl
  | cons p rest ih =>
      intro acc k
      cases htid : truthyId p with
      | none =>
          simp only [dedupAux, htid]
          rw [ih]
          have : findById (p :: rest) k = findById rest k := by
            simp [findById, htid]
          rw [this]
      | some q =>
          simp only [dedupAux, htid]
          by_cases hs : (lookupKey acc q).isSome = true
          · rw [if_pos hs, ih]
            by_cases hk : q = k
            · subst hk
              obtain ⟨v, hv⟩ := Option.isSome_iff_exists.mp hs
              rw [hv]
            · have : findById (p :: rest) k = findById rest k := by
                simp [findById, htid, hk]
              rw [this]
          · rw [if_neg hs, ih, lookupKey_append]
            have hnone : lookupKey acc q = none := by
              cases hl : lookupKey acc q with
              | none => rfl
              | some v => rw [hl] at hs; simp at hs
            by_cases hk : q = k
            · subst hk
              rw [hnone]
              simp [findById, htid]
            · have h2 : findById (p :: rest) k = findById rest k := by
                simp [findById, htid, hk]
              rw [h2]
              cases lookupKey acc k with
              | none => simp [hk]
              | some v => rfl

theorem dedupAux_keys_nodup (places : List SearchPlace) :
    ∀ acc : List (String × SearchPlace), (acc.map Prod.fst).Nodup →
    ((dedupAux acc places).map Prod.fst).Nodup := by
  induction places with
  | nil => intro acc h; exact h
  | cons p rest ih =>
      intro acc h
      cases htid : truthyId p with
      | none =>
          simp only [dedupAux, htid]
          exact ih acc h
      | some q =>
          simp only [dedupAux, htid]
          by_cases hs : (lookupKey acc q).isSome = true
          · rw [if_pos hs]
            exact ih acc h
          · rw [if_neg hs]
            apply ih
            have hq : q ∉ acc.map Prod.fst := by
              intro hmem
              exact hs ((lookupKey_isSome_iff acc q).mpr hmem)
            simp [List.nodup_append, h, hq]

theorem dedupAux_entries (places : List SearchPlace) :
    ∀ (acc : List (String × SearchPlace)) (e : String × SearchPlace),
    e ∈ dedupAux acc places → e ∈ acc ∨ truthyId e.2 = some e.1 := by
  induction places with
  | nil => intro acc e he; exact Or.inl he
  | cons p rest ih =>
      intro acc e he
      cases htid : truthyId p with
      | none =>
          simp only [dedupAux, htid] at he
          exact ih acc e he
      | some q =>
          simp only [dedupAux, htid] at he
          by_cases hs : (lookupKey acc q).isSome = true
          · rw [if_pos hs] at he
            exact ih acc e he
          · rw [if_neg hs] at he
            rcases ih _ e he with hacc | hok
            · rcases List.mem_append.mp hacc with h1 | h2
              · exact Or.inl h1
              · right
                have : e = (q, p) := by simpa using h2
                subst this
                exact htid
            · exact Or.inr hok

theorem keys_nodup_unique {l : List (String × SearchPlace)}
    (h : (l.map Prod.fst).Nodup) {k : String} {a b : SearchPlace} :
    (k, a) ∈ l → (k, b) ∈ l → a = b := by
  induction l with
  | nil => intro ha; simp at ha
  | cons e rest ih =>
      intro ha hb
      obtain ⟨k1, v⟩ := e
      simp only [List.map_cons, List.nodup_cons] at h
      rcases List.mem_cons.mp ha with h1 | h1 <;> rcases List.mem_cons.mp hb with h2 | h2
      · rw [Prod.mk.injEq] at h1 h2
        rw [h1.2, h2.2]
      · exfalso
        rw [Prod.mk.injEq] at h1
        apply h.1
        rw [← h1.1]
        exact List.mem_map_of_mem Prod.fst h2
      · exfalso
        rw [Prod.mk.injEq] at h2
        apply h.1
        rw [← h2.1]
        exact List.mem_map_of_mem Prod.fst h1
      · exact ih h.2 h1 h2

/-! ## Helper lemmas: classifier and pipeline -/

theorem classifier_fst (w : Option String) :
    (is_low_effort_or_missing_website w).1 = websiteMissingOrDenylisted w := by
  cases w with
  | none => rfl
  | some s =>
      by_cases h0 : s = ""
      · simp [is_low_effort_or_missing_website, websiteMissingOrDenylisted, h0]
      · by_cases hd : domain_of s ∈ LOW_EFFORT_DOMAINS <;>
          simp [is_low_effort_or_missing_website, websiteMissingOrDenylisted, h0, hd]

/-- The unfolding of `pipelineLoop` at a cons cell, with the effective
detail abbreviated. -/
theorem pipelineLoop_cons (net : NetOracle) (details : DetailOracle) (minr : ℚ)
    (minrev : ℤ) (dry dbg : Bool) (pid : String) (p : SearchPlace)
    (rest : List (String × SearchPlace)) :
    pipelineLoop net details minr minrev dry dbg ((pid, p) :: rest) =
      if p.rating.getD 0 < minr ∨ p.userRatingCount.getD 0 < minrev then
        pipelineLoop net details minr minrev dry dbg rest
      else
        ((if (is_low_effort_or_missing_website (effDetail details dry pid p).websiteUri).1 = true then
            mkLead (effDetail details dry pid p) pid (effDetail details dry pid p).websiteUri
              (extract_email_from_website net dry dbg
                ((effDetail details dry pid p).websiteUri.getD "")).1
              (extract_email_from_website net dry dbg
                ((effDetail details dry pid p).websiteUri.getD "")).2.1
              (is_low_effort_or_missing_website (effDetail details dry pid p).websiteUri).2
              :: (pipelineLoop net details minr minrev dry dbg rest).1
          else (pipelineLoop net details minr minrev dry dbg rest).1),
         pid :: (pipelineLoop net details minr minrev dry dbg rest).2) := by
  simp only [pipelineLoop, effDetail]

theorem pipelineLoop_lead_mem (net : NetOracle) (details : DetailOracle) (minr : ℚ)
    (minrev : ℤ) (dry dbg : Bool) :
    ∀ (ps : List (String × SearchPlace)) (l : Lead),
    l ∈ (pipelineLoop net details minr minrev dry dbg ps).1 →
    ∃ pid p, (pid, p) ∈ ps ∧
      minr ≤ p.rating.getD 0 ∧ minrev ≤ p.userRatingCount.getD 0 ∧
      (is_low_effort_or_missing_website (effDetail details dry pid p).websiteUri).1 = true ∧
      l = mkLead (effDetail details dry pid p) pid (effDetail details dry pid p).websiteUri
            (extract_email_from_website net dry dbg
              ((effDetail details dry pid p).websiteUri.getD "")).1
            (extract_email_from_website net dry dbg
              ((effDetail details dry pid p).websiteUri.getD "")).2.1
            (is_low_effort_or_missing_website (effDetail details dry pid p).websiteUri).2 := by
  intro ps
  induction ps with
  | nil =>
      intro l hl
      simp [pipelineLoop] at hl
  | cons e rest ih =>
      obtain ⟨pid, p⟩ := e
      intro l hl
      rw [pipelineLoop_cons] at hl
      by_cases hth : p.rating.getD 0 < minr ∨ p.userRatingCount.getD 0 < minrev
      · rw [if_pos hth] at hl
        obtain ⟨pid1, p1, hmem, hrest⟩ := ih l hl
        exact ⟨pid1, p1, List.mem_cons_of_mem _ hmem, hrest⟩
      · rw [if_neg hth] at hl
        rw [not_or, not_lt, not_lt] at hth
        by_cases hcls :
            (is_low_effort_or_missing_website (effDetail details dry pid p).websiteUri).1 = true
        · rw [if_pos hcls] at hl
          rcases List.mem_cons.mp hl with hlead | hl2
          · exact ⟨pid, p, List.mem_cons_self _ _, hth.1, hth.2, hcls, hlead⟩
          · obtain ⟨pid1, p1, hmem, hrest⟩ := ih l hl2
            exact ⟨pid1, p1, List.mem_cons_of_mem _ hmem, hrest⟩
        · rw [if_neg hcls] at hl
          obtain ⟨pid1, p1, hmem, hrest⟩ := ih l hl
          exact ⟨pid1, p1, List.mem_cons_of_mem _ hmem, hrest⟩

theorem pipelineLoop_fetch_mem (net : NetOracle) (details : DetailOracle) (minr : ℚ)
    (minrev : ℤ) (dry dbg : Bool) :
    ∀ (ps : List (String × SearchPlace)) (pid : String),
    pid ∈ (pipelineLoop net details minr minrev dry dbg ps).2 →
    ∃ p, (pid, p) ∈ ps ∧
      ¬ (p.rating.getD 0 < minr ∨ p.userRatingCount.getD 0 < minrev) := by
  intro ps
  induction ps with
  | nil =>
      intro pid h
      simp [pipelineLoop] at h
  | cons e rest ih =>
      obtain ⟨pid1, p1⟩ := e
      intro pid h
      rw [pipelineLoop_cons] at h
      by_cases hth : p1.rating.getD 0 < minr ∨ p1.userRatingCount.getD 0 < minrev
      · rw [if_pos hth] at h
        obtain ⟨p, hmem, hpass⟩ := ih pid h
        exact ⟨p, List.mem_cons_of_mem _ hmem, hpass⟩
      · rw [if_neg hth] at h
        rcases List.mem_cons.mp h with heq | h2
        · exact ⟨p1, by rw [heq]; exact List.mem_cons_self _ _, hth⟩
        · obtain ⟨p, hmem, hpass⟩ := ih pid h2
          exact ⟨p, List.mem_cons_of_mem _ hmem, hpass⟩

theorem effDetail_id_getD (details : DetailOracle)
    (hdet : ∀ q, (details q).id.getD q = q) (dry : Bool) (pid : String) (p : SearchPlace) :
    (effDetail details dry pid p).id.getD pid = pid := by
  cases dry with
  | false => exact hdet pid
  | true => rfl

theorem mkLead_place_id (d : PlaceDetail) (pid : String) (w : Option String)
    (email source reason : String) :
    (mkLead d pid w email source reason).place_id = d.id.getD pid := rfl

/-! ## Helper lemmas: email scraping -/

theorem extract_email_dry (net : NetOracle) (dbg : Bool) (w : String) :
    extract_email_from_website net true dbg w = ("", "", []) := by
  simp [extract_email_from_website]

theorem sortedMin_eq_some_of_ne_nil {l : List String} (h : l ≠ []) :
    ∃ e, sortedMin l = some e := by
  unfold sortedMin
  cases hs : l.insertionSort pyLe with
  | nil =>
      exfalso
      have := List.length_insertionSort pyLe l
      rw [hs] at this
      exact h (List.length_eq_zero.mp this.symm)
  | cons a t => exact ⟨a, rfl⟩

theorem sortedMin_mem {l : List String} {e : String} (h : sortedMin l = some e) : e ∈ l := by
  unfold sortedMin at h
  cases hs : l.insertionSort pyLe with
  | nil => rw [hs] at h; simp at h
  | cons a t =>
      rw [hs] at h
      simp only [List.head?_cons, Option.some.injEq] at h
      have ha : a ∈ l.insertionSort pyLe := by
        rw [hs]; exact List.mem_cons_self _ _
      exact h ▸ (List.mem_insertionSort pyLe).mp ha

theorem listLeB_refl : ∀ l : List Char, listLeB l l = true
  | [] => rfl
  | c :: cs => by
      simp only [listLeB, if_pos rfl]
      exact listLeB_refl cs

theorem pyLe_refl (a : String) : pyLe a a := listLeB_refl a.data

theorem sortedMin_le {l : List String} {e x : String} (h : sortedMin l = some e)
    (hx : x ∈ l) : pyLe e x := by
  unfold sortedMin at h
  have hsorted : (l.insertionSort pyLe).Sorted pyLe :=
    List.sorted_insertionSort pyLe l
  have hx2 : x ∈ l.insertionSort pyLe :=
    (List.mem_insertionSort pyLe).mpr hx
  cases hs : l.insertionSort pyLe with
  | nil => rw [hs] at h; simp at h
  | cons a t =>
      rw [hs] at h
      simp only [List.head?_cons, Option.some.injEq] at h
      subst h
      rw [hs] at hx2 hsorted
      rcases List.mem_cons.mp hx2 with hxa | hxt
      · rw [hxa]
        exact pyLe_refl a
      · exact (List.sorted_cons.mp hsorted).1 x hxt

theorem fetch_errAsEmpty (net : NetOracle) (dry : Bool) (u : String) :
    fetch_html (errAsEmpty net) dry u = fetch_html net dry u := by
  cases dry with
  | true => rfl
  | false =>
      simp only [fetch_html, errAsEmpty]
      cases h : net u with
      | error e => simp [h, fetch_html]
      | ok r => simp [h, fetch_html]

theorem scanCandidatePages_congr (net1 net2 : NetOracle) (dry : Bool)
    (h : ∀ u, fetch_html net1 dry u = fetch_html net2 dry u) :
    ∀ urls : List String,
    scanCandidatePages net1 dry urls = scanCandidatePages net2 dry urls := by
  intro urls
  induction urls with
  | nil => rfl
  | cons u rest ih => simp only [scanCandidatePages, h u, ih]

theorem extract_email_congr (net1 net2 : NetOracle)
    (h : ∀ d u, fetch_html net1 d u = fetch_html net2 d u) (dry dbg : Bool) (w : String) :
    extract_email_from_website net1 dry dbg w = extract_email_from_website net2 dry dbg w := by
  simp only [extract_email_from_website, h,
    scanCandidatePages_congr net1 net2 dry (fun u => h dry u)]

theorem pipelineLoop_congr (net1 net2 : NetOracle) (details : DetailOracle) (minr : ℚ)
    (minrev : ℤ) (dry dbg : Bool)
    (h : ∀ d u, fetch_html net1 d u = fetch_html net2 d u) :
    ∀ ps, pipelineLoop net1 details minr minrev dry dbg ps =
          pipelineLoop net2 details minr minrev dry dbg ps := by
  intro ps
  induction ps with
  | nil => rfl
  | cons e rest ih =>
      obtain ⟨pid, p⟩ := e
      rw [pipelineLoop_cons, pipelineLoop_cons, ih,
        extract_email_congr net1 net2 h dry dbg]

/-! ## Helper lemmas: pagination -/

/-- The effective response data seen by the loop body: the fabricated
payload in dry-run mode, the backend response otherwise. -/
def effSearchData (resp : SearchOracle) (dry : Bool) (dp : List SearchPlace)
    (k : Nat) (tok : Option String) : SearchData :=
  if dry then { places := dp, nextPageToken := none } else resp k tok

theorem searchLoop_succ_none (resp : SearchOracle) (dry : Bool) (dp : List SearchPlace)
    (rem k : Nat) (tok : Option String)
    (h : (effSearchData resp dry dp k tok).nextPageToken = none) :
    searchLoop resp dry dp (rem + 1) k tok =
      ((effSearchData resp dry dp k tok).places, 1, none) := by
  simp only [effSearchData] at h
  simp only [searchLoop, effSearchData, h]

theorem searchLoop_succ_some (resp : SearchOracle) (dry : Bool) (dp : List SearchPlace)
    (rem k : Nat) (tok : Option String) (t : String)
    (h : (effSearchData resp dry dp k tok).nextPageToken = some t) :
    searchLoop resp dry dp (rem + 1) k tok =
      ((effSearchData resp dry dp k tok).places ++ (searchLoop resp dry dp rem (k + 1) (some t)).1,
       (searchLoop resp dry dp rem (k + 1) (some t)).2.1 + 1,
       if (searchLoop resp dry dp rem (k + 1) (some t)).2.1 = 0 then some t
       else (searchLoop resp dry dp rem (k + 1) (some t)).2.2) := by
  simp only [effSearchData] at h
  simp only [searchLoop, effSearchData, h]

theorem searchLoop_count_le (resp : SearchOracle) (dry : Bool) (dp : List SearchPlace) :
    ∀ (rem k : Nat) (tok : Option String),
    (searchLoop resp dry dp rem k tok).2.1 ≤ rem := by
  intro rem
  induction rem with
  | zero => intro k tok; simp [searchLoop]
  | succ m ih =>
      intro k tok
      cases hnp : (effSearchData resp dry dp k tok).nextPageToken with
      | none =>
          rw [searchLoop_succ_none resp dry dp m k tok hnp]
          simp
      | some t =>
          rw [searchLoop_succ_some resp dry dp m k tok t hnp]
          have := ih (k + 1) (some t)
          simp only []
          omega

theorem searchLoop_count_pos (resp : SearchOracle) (dry : Bool) (dp : List SearchPlace) :
    ∀ (rem k : Nat) (tok : Option String), 1 ≤ rem →
    1 ≤ (searchLoop resp dry dp rem k tok).2.1 := by
  intro rem
  cases rem with
  | zero => intro k tok h; omega
  | succ m =>
      intro k tok _
      cases hnp : (effSearchData resp dry dp k tok).nextPageToken with
      | none =>
          rw [searchLoop_succ_none resp dry dp m k tok hnp]
      | some t =>
          rw [searchLoop_succ_some resp dry dp m k tok t hnp]
          simp only []
          omega

theorem searchLoop_stop (resp : SearchOracle) (dry : Bool) (dp : List SearchPlace) :
    ∀ (rem k : Nat) (tok : Option String),
    (searchLoop resp dry dp rem k tok).2.1 < rem →
    (searchLoop resp dry dp rem k tok).2.2 = none := by
  intro rem
  induction rem with
  | zero => intro k tok h; omega
  | succ m ih =>
      intro k tok h
      cases hnp : (effSearchData resp dry dp k tok).nextPageToken with
      | none =>
          rw [searchLoop_succ_none resp dry dp m k tok hnp]
      | some t =>
          rw [searchLoop_succ_some resp dry dp m k tok t hnp] at h ⊢
          simp only [] at h ⊢
          by_cases hz : (searchLoop resp dry dp m (k + 1) (some t)).2.1 = 0
          · exfalso
            cases hm : m with
            | zero => omega
            | succ m2 =>
                have := searchLoop_count_pos resp dry dp m (k + 1) (some t) (by omega)
                omega
          · rw [if_neg hz]
            apply ih
            omega

theorem searchLoop_first_none (resp : SearchOracle) (dry : Bool) (dp : List SearchPlace)
    (rem : Nat) (hrem : 1 ≤ rem)
    (hfirst : (effSearchData resp dry dp 0 none).nextPageToken = none) :
    (searchLoop resp dry dp rem 0 none).2.1 = 1 := by
  cases rem with
  | zero => omega
  | succ m =>
      rw [searchLoop_succ_none resp dry dp m 0 none hfirst]

/-! ## Helper lemmas: candidate pages -/

theorem foldl_hrefCandidate (base : String) :
    ∀ (hrefs : List String) (acc : List String),
    hrefs.foldl
      (fun acc href =>
        match hrefCandidate base href with
        | some u => acc ++ [u]
        | none => acc) acc
      = acc ++ hrefs.filterMap (hrefCandidate base) := by
  intro hrefs
  induction hrefs with
  | nil => intro acc; simp
  | cons href rest ih =>
      intro acc
      simp only [List.foldl_cons, List.filterMap_cons]
      cases hc : hrefCandidate base href with
      | none => rw [ih]
      | some u => rw [ih]; simp

theorem foldl_append_map (f : String → String) :
    ∀ (l : List String) (acc : List String),
    l.foldl (fun acc p => acc ++ [f p]) acc = acc ++ l.map f := by
  intro l
  induction l with
  | nil => intro acc; simp
  | cons p rest ih =>
      intro acc
      simp only [List.foldl_cons, List.map_cons]
      rw [ih]
      simp

theorem dedupLoop_spec :
    ∀ (cs : List String) (seen out : List String),
    (dedupLoop (seen, out) cs).2 = out ++ firstOcc seen cs := by
  intro cs
  induction cs with
  | nil => intro seen out; simp [dedupLoop, firstOcc]
  | cons u rest ih =>
      intro seen out
      simp only [dedupLoop, firstOcc]
      by_cases hu : u ∈ seen
      · rw [if_pos hu, if_pos hu, ih]
      · rw [if_neg hu, if_neg hu, ih]
        simp

/-! ## Claims -/

/-- Claim C1: for every place processed by the pipeline, a Lead is
appended to the output only if the place's effective detail website is
missing or denylisted, AND its rating meets the configured minimum, AND
its review count meets the configured minimum; no lead violating any of
the three conditions is emitted. -/
theorem C1_lead_emission_invariant (net : NetOracle) (details : DetailOracle)
    (min_rating : ℚ) (min_reviews : ℤ) (dry_run debug : Bool)
    (places : List SearchPlace) (l : Lead)
    (hl : l ∈ (run_pipeline net details min_rating min_reviews dry_run debug places).1) :
    ∃ pid p, (pid, p) ∈ dedupById places ∧
      min_rating ≤ p.rating.getD 0 ∧ min_reviews ≤ p.userRatingCount.getD 0 ∧
      websiteMissingOrDenylisted (effDetail details dry_run pid p).websiteUri = true := by
  obtain ⟨pid, p, hmem, hr, hc, hcls, _⟩ :=
    pipelineLoop_lead_mem net details min_rating min_reviews dry_run debug
      (dedupById places) l hl
  exact ⟨pid, p, hmem, hr, hc, classifier_fst (effDetail details dry_run pid p).websiteUri ▸ hcls⟩

/-- Witness for C1: the dry-run lead for `dpOne` satisfies all three
conditions. -/
theorem C1_witness :
    ∃ pid p, (pid, p) ∈ dedupById [dpOne] ∧
      (mkRat 42 10) ≤ p.rating.getD 0 ∧ (20 : ℤ) ≤ p.userRatingCount.getD 0 ∧
      websiteMissingOrDenylisted (effDetail noDetail true pid p).websiteUri = true :=
  C1_lead_emission_invariant netDown noDetail (mkRat 42 10) 20 true false [dpOne] dryLead1
    (by decide)

/-- Claim C2 (counterexample): the website `http://facebook.com:80/` has
host component `facebook.com`, a member of the denylist, yet the
classifier returns is-lead false, because the code compares the whole
netloc (`facebook.com:80`), port included, not the host. -/
theorem C2_counterexample :
    specHostComponent "http://facebook.com:80/" ∈ LOW_EFFORT_DOMAINS ∧
    (is_low_effort_or_missing_website (some "http://facebook.com:80/")).1 = false := by
  decide

/-- Claim C2 (amended): the classifier returns
`(true, "missing_website")` for `None` or empty websites, returns
`(true, "low_effort_domain:<netloc>")` when the website's `urlparse`
netloc (the authority component, port and user-info included),
lowercased, is a member of the denylist, and returns is-lead false for
every other website. -/
theorem C2_classifier_characterisation :
    (is_low_effort_or_missing_website none = (true, "missing_website")) ∧
    (is_low_effort_or_missing_website (some "") = (true, "missing_website")) ∧
    (∀ s, s ≠ "" → domain_of s ∈ LOW_EFFORT_DOMAINS →
      is_low_effort_or_missing_website (some s) = (true, "low_effort_domain:" ++ domain_of s)) ∧
    (∀ s, s ≠ "" → domain_of s ∉ LOW_EFFORT_DOMAINS →
      (is_low_effort_or_missing_website (some s)).1 = false) := by
  refine ⟨rfl, by decide, ?_, ?_⟩
  · intro s hs hd
    simp [is_low_effort_or_missing_website, hs, hd]
  · intro s hs hd
    simp [is_low_effort_or_missing_website, hs, hd]

/-- Witness for C2: a Facebook page URL is classified as a lead with the
denylist reason; an ordinary website is not a lead. -/
theorem C2_witness :
    is_low_effort_or_missing_website (some "https://www.facebook.com/somebarber") =
      (true, "low_effort_domain:www.facebook.com") ∧
    (is_low_effort_or_missing_website (some "https://independent-barber.co.uk/")).1 = false := by
  constructor
  · have h := C2_classifier_characterisation.2.2.1 "https://www.facebook.com/somebarber"
      (by decide) (by decide)
    rw [h]
    decide
  · exact C2_classifier_characterisation.2.2.2 "https://independent-barber.co.uk/"
      (by decide) (by decide)

/-- Claim C3: the deduplicated mapping has pairwise-distinct keys, each
entry's key is its result's (truthy) identifier, and looking up any
identifier yields exactly the earliest search result carrying it; results
lacking an identifier (absent or empty, per Python truthiness) are
dropped. -/
theorem C3_dedup_characterisation (places : List SearchPlace) :
    ((dedupById places).map Prod.fst).Nodup ∧
    (∀ e ∈ dedupById places, truthyId e.2 = some e.1) ∧
    (∀ pid, lookupKey (dedupById places) pid = findById places pid) := by
  refine ⟨dedupAux_keys_nodup places [] (by simp), ?_, ?_⟩
  · intro e he
    rcases dedupAux_entries places [] e he with h | h
    · simp at h
    · exact h
  · intro pid
    rw [dedupById, dedupAux_lookup places [] pid]
    rfl

/-- Witness for C3: on a sequence with a repeated id and an id-less
result, lookup returns the earliest occurrence. -/
theorem C3_witness :
    lookupKey (dedupById [dpOne, dpDup, dpNoId]) "DRY_PLACE_1" =
      findById [dpOne, dpDup, dpNoId] "DRY_PLACE_1" ∧
    truthyId dpOne = some "DRY_PLACE_1" :=
  ⟨(C3_dedup_characterisation [dpOne, dpDup, dpNoId]).2.2 "DRY_PLACE_1",
   (C3_dedup_characterisation [dpOne, dpDup, dpNoId]).2.1 ("DRY_PLACE_1", dpOne) (by decide)⟩

/-- Claim C4: a unique place whose rating or review count is below the
configured minimum triggers no detail-fetch call and appears in no output
lead (the details endpoint reports each place under its own id). -/
theorem C4_threshold_filter (net : NetOracle) (details : DetailOracle)
    (min_rating : ℚ) (min_reviews : ℤ) (dry_run debug : Bool)
    (places : List SearchPlace) (pid : String) (p : SearchPlace)
    (hmem : (pid, p) ∈ dedupById places)
    (hfail : p.rating.getD 0 < min_rating ∨ p.userRatingCount.getD 0 < min_reviews)
    (hdet : ∀ q, (details q).id.getD q = q) :
    pid ∉ (run_pipeline net details min_rating min_reviews dry_run debug places).2 ∧
    ∀ l ∈ (run_pipeline net details min_rating min_reviews dry_run debug places).1,
      l.place_id ≠ pid := by
  have hnodup := dedupAux_keys_nodup places [] (by simp)
  constructor
  · intro hin
    obtain ⟨p2, hmem2, hpass⟩ := pipelineLoop_fetch_mem net details min_rating min_reviews
      dry_run debug (dedupById places) pid hin
    have hp : p2 = p := keys_nodup_unique hnodup hmem2 hmem
    rw [hp] at hpass
    exact hpass hfail
  · intro l hl heq
    obtain ⟨pid1, p1, hmem1, hr1, hc1, _, hlead⟩ := pipelineLoop_lead_mem net details
      min_rating min_reviews dry_run debug (dedupById places) l hl
    have hpl : l.place_id = pid1 := by
      rw [hlead, mkLead_place_id, effDetail_id_getD details hdet]
    rw [hpl] at heq
    subst heq
    have hp : p1 = p := keys_nodup_unique hnodup hmem1 hmem
    rw [hp] at hr1 hc1
    rcases hfail with hf | hf
    · exact absurd hr1 (not_le.mpr hf)
    · exact absurd hc1 (not_le.mpr hf)

/-- Witness for C4: the below-threshold place `dpLow` is never
detail-fetched and owns no lead in a dry run next to `dpOne`. -/
theorem C4_witness :
    "LOW_PLACE_2" ∉ (run_pipeline netDown noDetail (mkRat 42 10) 20 true false [dpOne, dpLow]).2 ∧
    ∀ l ∈ (run_pipeline netDown noDetail (mkRat 42 10) 20 true false [dpOne, dpLow]).1,
      l.place_id ≠ "LOW_PLACE_2" :=
  C4_threshold_filter netDown noDetail (mkRat 42 10) 20 true false [dpOne, dpLow] "LOW_PLACE_2"
    dpLow (by decide) (Or.inl (by decide)) (fun q => rfl)

/-- Claim C5: whenever the fetched homepage HTML contains at least one
email-shaped substring, the scraper returns the lexicographically
smallest matched email (code-point order, `pyLe`) with provenance
`homepage`, fetching only the homepage and no secondary page. -/
theorem C5_homepage_email_minimum (net : NetOracle) (dbg : Bool) (website : String)
    (hw : website ≠ "")
    (hne : extract_emails_from_html (fetch_html net false website) ≠ []) :
    (extract_email_from_website net false dbg website).1 ∈
        extract_emails_from_html (fetch_html net false website) ∧
    (∀ e ∈ extract_emails_from_html (fetch_html net false website),
        pyLe (extract_email_from_website net false dbg website).1 e) ∧
    (extract_email_from_website net false dbg website).2.1 = "homepage" ∧
    (extract_email_from_website net false dbg website).2.2 = [website] := by
  obtain ⟨m, hm⟩ := sortedMin_eq_some_of_ne_nil hne
  have hx : extract_email_from_website net false dbg website = (m, "homepage", [website]) := by
    simp only [extract_email_from_website, Bool.or_false, decide_eq_false hw,
      Bool.false_eq_true, if_false, hm]
  rw [hx]
  exact ⟨sortedMin_mem hm, fun e he => sortedMin_le hm he, rfl, rfl⟩

/-- Witness for C5: a homepage containing `b@x.com` and `a@x.com` yields
`a@x.com` with provenance `homepage` after a single homepage fetch. -/
theorem C5_witness :
    extract_email_from_website netTwoEmails false false "https://x.example" =
      ("a@x.com", "homepage", ["https://x.example"]) ∧
    (extract_email_from_website netTwoEmails false false "https://x.example").1 ∈
      extract_emails_from_html (fetch_html netTwoEmails false "https://x.example") ∧
    ∀ e ∈ extract_emails_from_html (fetch_html netTwoEmails false "https://x.example"),
      pyLe (extract_email_from_website netTwoEmails false false "https://x.example").1 e := by
  refine ⟨by decide, ?_, ?_⟩
  · exact (C5_homepage_email_minimum netTwoEmails false "https://x.example"
      (by decide) (by decide)).1
  · exact (C5_homepage_email_minimum netTwoEmails false "https://x.example"
      (by decide) (by decide)).2.1

/-- Claim C6 (counterexample): for the empty homepage HTML (which the
scraper passes in whenever the homepage fetch fails) the candidate list
is empty — the conventional paths are not appended unconditionally, so
the claim fails for that homepage HTML. -/
theorem C6_counterexample :
    find_candidate_pages "https://example.com" "" = [] ∧
    urljoin (stripTrailingSlashes "https://example.com" ++ "/") "contact" =
      "https://example.com/contact" ∧
    "https://example.com/contact" ∉ find_candidate_pages "https://example.com" "" := by
  exact ⟨by decide, by decide, by decide⟩

/-- Claim C6 (amended): for every base URL and nonempty homepage HTML,
the candidate list is exactly the hint-matching anchor URLs in document
order followed by the six conventional paths, deduplicated keeping first
occurrences, and capped at 6 entries; for empty HTML the list is empty. -/
theorem C6_candidate_pages (base_url html : String) (hh : html ≠ "") :
    find_candidate_pages base_url html =
      (firstOcc [] (anchorCandidates base_url html ++ commonPathCandidates base_url)).take 6 ∧
    (find_candidate_pages base_url html).length ≤ 6 := by
  have hchar : find_candidate_pages base_url html =
      (firstOcc [] (anchorCandidates base_url html ++ commonPathCandidates base_url)).take 6 := by
    simp only [find_candidate_pages]
    rw [if_neg hh]
    rw [foldl_hrefCandidate, foldl_append_map, dedupLoop_spec]
    simp [anchorCandidates, commonPathCandidates, COMMON_PATHS]
  refine ⟨hchar, ?_⟩
  rw [hchar, List.length_take]
  exact min_le_left _ _

/-- Witness for C6: a homepage whose only anchor is `href="/about-us"`
resolves to a list containing `https://example.com/about-us`, of length
at most 6. -/
theorem C6_witness :
    find_candidate_pages "https://example.com" "<a href=\"/about-us\">About</a>" =
      (firstOcc [] (anchorCandidates "https://example.com" "<a href=\"/about-us\">About</a>" ++
        commonPathCandidates "https://example.com")).take 6 ∧
    (find_candidate_pages "https://example.com" "<a href=\"/about-us\">About</a>").length ≤ 6 ∧
    "https://example.com/about-us" ∈
      find_candidate_pages "https://example.com" "<a href=\"/about-us\">About</a>" := by
  refine ⟨(C6_candidate_pages "https://example.com" "<a href=\"/about-us\">About</a>"
    (by decide)).1,
    (C6_candidate_pages "https://example.com" "<a href=\"/about-us\">About</a>"
    (by decide)).2, by decide⟩

/-- Claim C7 (counterexample): a 201 response with an HTML content type
is a 2xx HTML response, yet the fetch yields empty content instead of
the page body: the code requires status exactly 200, not any 2xx. -/
theorem C7_counterexample :
    (200 ≤ 201 ∧ 201 < 300) ∧
    strContains (strLower ((some "text/html" : Option String).getD "")) "text/html" = true ∧
    fetch_html net201 false "https://a.example" = "" ∧
    ("hello" : String) ≠ "" := by
  exact ⟨by omega, by decide, by decide, by decide⟩

/-- Claim C7 (amended): a fetch yields the page body exactly when the
response has status exactly 200 and an HTML content type (lowercased
`Content-Type` containing `text/html`); any other status or content type
yields the empty string, not a failure. -/
theorem C7_fetch_characterisation (net : NetOracle) (url : String) (r : HttpResponse)
    (hnet : net url = Except.ok r) :
    fetch_html net false url =
      if r.status = 200 ∧ strContains (strLower (r.contentType.getD "")) "text/html" = true
      then r.body else "" := by
  simp only [fetch_html, Bool.false_eq_true, if_false, hnet]
  by_cases h200 : r.status = 200
  · by_cases hct : strContains (strLower (r.contentType.getD "")) "text/html" = true
    · simp [h200, hct]
    · simp [h200, hct]
  · simp [h200]

/-- Witness for C7: a 200 HTML response yields its body. -/
theorem C7_witness :
    fetch_html netOkHtml false "https://ok.example" = "<p>hi</p>" := by
  have h := C7_fetch_characterisation netOkHtml "https://ok.example"
    { status := 200, contentType := some "text/html; charset=utf-8", body := "<p>hi</p>" } rfl
  rw [h]
  decide

/-- Claim C8: an exception raised by a page fetch is swallowed —
`fetch_html` returns empty content on it, the whole scraper computes the
same result as under an oracle where the exception is replaced by an
empty page (so scraping proceeds to the remaining candidates), and the
pipeline output is unchanged: no exception propagates or aborts the
run. -/
theorem C8_scraping_errors_swallowed (net : NetOracle) (dbg : Bool) (w : String)
    (details : DetailOracle) (minr : ℚ) (minrev : ℤ) (places : List SearchPlace) :
    (∀ u e, net u = Except.error e → fetch_html net false u = "") ∧
    extract_email_from_website net false dbg w =
      extract_email_from_website (errAsEmpty net) false dbg w ∧
    run_pipeline net details minr minrev false dbg places =
      run_pipeline (errAsEmpty net) details minr minrev false dbg places := by
  refine ⟨?_, ?_, ?_⟩
  · intro u e he
    simp [fetch_html, he]
  · exact (extract_email_congr (errAsEmpty net) net
      (fun d u => fetch_errAsEmpty net d u) false dbg w).symm
  · exact (pipelineLoop_congr (errAsEmpty net) net details minr minrev false dbg
      (fun d u => fetch_errAsEmpty net d u) (dedupById places)).symm

/-- Witness for C8: under an oracle where every request raises, the fetch
returns empty content and the scraper behaves as under empty pages. -/
theorem C8_witness :
    fetch_html netDown false "https://down.example" = "" ∧
    extract_email_from_website netDown false false "https://down.example" =
      extract_email_from_website (errAsEmpty netDown) false false "https://down.example" := by
  refine ⟨?_, ?_⟩
  · exact (C8_scraping_errors_swallowed netDown false "https://down.example"
      noDetail 0 0 []).1 "https://down.example" "ConnectionError" rfl
  · exact (C8_scraping_errors_swallowed netDown false "https://down.example"
      noDetail 0 0 []).2.1

/-- Claim C9 (counterexample): with a page bound of 0 the search fetches
no page at all, so "exactly one page is fetched regardless of the
configured page bound" fails at bound 0 even though the (dry-run)
response carries no continuation token. -/
theorem C9_counterexample :
    (text_search respNone true "barbers" "London, UK" 0).2.1 = 0 ∧
    (text_search respNone true "barbers" "London, UK" 0).2.1 ≠ 1 := by
  exact ⟨rfl, by decide⟩

/-- Claim C9 (amended): for every positive page bound, when the first
(effective) response carries no continuation token exactly one page is
fetched; in general at most the bound many pages are fetched, and if
fewer pages than the bound were fetched then the last response carried no
continuation token.  Both search modes share this behaviour. -/
theorem C9_pagination_termination (resp : SearchOracle) (niche location : String)
    (n : Nat) (dry : Bool) :
    (1 ≤ n → (effSearchData resp dry (dryTextPlaces niche location) 0 none).nextPageToken = none →
      (text_search resp dry niche location n).2.1 = 1) ∧
    (text_search resp dry niche location n).2.1 ≤ n ∧
    ((text_search resp dry niche location n).2.1 < n →
      (text_search resp dry niche location n).2.2 = none) ∧
    (1 ≤ n → (effSearchData resp dry (dryRadiusPlaces niche) 0 none).nextPageToken = none →
      (radius_search_via_text_bias resp dry niche n).2.1 = 1) ∧
    (radius_search_via_text_bias resp dry niche n).2.1 ≤ n ∧
    ((radius_search_via_text_bias resp dry niche n).2.1 < n →
      (radius_search_via_text_bias resp dry niche n).2.2 = none) := by
  refine ⟨?_, ?_, ?_, ?_, ?_, ?_⟩
  · intro h1 h2
    exact searchLoop_first_none resp dry (dryTextPlaces niche location) n h1 h2
  · exact searchLoop_count_le resp dry (dryTextPlaces niche location) n 0 none
  · intro h
    exact searchLoop_stop resp dry (dryTextPlaces niche location) n 0 none h
  · intro h1 h2
    exact searchLoop_first_none resp dry (dryRadiusPlaces niche) n h1 h2
  · exact searchLoop_count_le resp dry (dryRadiusPlaces niche) n 0 none
  · intro h
    exact searchLoop_stop resp dry (dryRadiusPlaces niche) n 0 none h

/-- Witness for C9: a dry run with bound 3 issues exactly one request in
both search modes. -/
theorem C9_witness :
    (text_search respNone true "barbers" "London, UK" 3).2.1 = 1 ∧
    (text_search respNone true "barbers" "London, UK" 3).2.1 ≤ 3 ∧
    (radius_search_via_text_bias respNone true "barbers" 3).2.1 = 1 := by
  have h := C9_pagination_termination respNone "barbers" "London, UK" 3 true
  exact ⟨h.1 (by omega) rfl, h.2.1, h.2.2.2.1 (by omega) rfl⟩

/-- Claim C10: in dry-run mode the scraper returns empty email and empty
provenance for every website without performing any page fetch, and
every lead of a dry-run pipeline has empty `email` and `email_source`. -/
theorem C10_dry_run_no_scrape (net : NetOracle) (dbg : Bool) (w : String)
    (details : DetailOracle) (minr : ℚ) (minrev : ℤ) (places : List SearchPlace) :
    extract_email_from_website net true dbg w = ("", "", []) ∧
    ∀ l ∈ (run_pipeline net details minr minrev true dbg places).1,
      l.email = "" ∧ l.email_source = "" := by
  refine ⟨extract_email_dry net dbg w, ?_⟩
  intro l hl
  obtain ⟨pid, p, _, _, _, _, hlead⟩ :=
    pipelineLoop_lead_mem net details minr minrev true dbg (dedupById places) l hl
  rw [hlead]
  simp [mkLead, extract_email_dry]

/-- Witness for C10: the dry-run lead for `dpOne` has empty email and
empty provenance. -/
theorem C10_witness :
    extract_email_from_website netDown true false "https://x.example" = ("", "", []) ∧
    dryLead1.email = "" ∧ dryLead1.email_source = "" :=
  ⟨(C10_dry_run_no_scrape netDown false "https://x.example" noDetail (mkRat 42 10) 20
      [dpOne]).1,
   (C10_dry_run_no_scrape netDown false "https://x.example" noDetail (mkRat 42 10) 20
      [dpOne]).2 dryLead1 (by decide)⟩
